import Mathlib

/-!
# Verification of the FileSharingPlatform client core

Shallow embedding of the repository's reproducible core:
* the Local Session Store (browser `localStorage` under the keys
  `"userData"` and `"uploadedFiles"`),
* the Credential Gate (`handleLogin` in `src/pages/Login.tsx`),
* the Upload Simulator (`handleFileSelect`, `simulateFileUpload`,
  `saveUploadedFile`, `removeFile`, `getTotalProgress`, `allUploaded`
  in the uploader component).

JavaScript numbers are modelled as `ℚ` (the claims only use addition,
division and order on small values), timestamps as `ℕ` milliseconds, and
JSON values as an inductive `Json`.  A stored key either is absent,
holds text that parses to a `Json` value, or holds malformed (non-JSON)
text; `JSON.parse` on malformed text throws, which is modelled with
`Except`.
-/

/-- A JSON value, as produced by `JSON.parse`. -/
inductive Json where
  | null : Json
  | bool (b : Bool) : Json
  | num (q : ℚ) : Json
  | str (s : String) : Json
  | arr (elems : List Json) : Json
  | obj (fields : List (String × Json)) : Json
deriving Repr

/-- Structural equality on `Json` (the derive handler does not cope with
the nested `List` occurrences on this toolchain, so it is spelt out). -/
def Json.beq : Json → Json → Bool
  | .null, .null => true
  | .bool a, .bool b => a == b
  | .num a, .num b => a == b
  | .str a, .str b => a == b
  | .arr as, .arr bs =>
      match as, bs with
      | [], [] => true
      | a :: as, b :: bs => Json.beq a b && Json.beq (.arr as) (.arr bs)
      | _, _ => false
  | .obj as, .obj bs =>
      match as, bs with
      | [], [] => true
      | (k, a) :: as, (l, b) :: bs =>
          k == l && Json.beq a b && Json.beq (.obj as) (.obj bs)
      | _, _ => false
  | _, _ => false

instance : BEq Json := ⟨Json.beq⟩

/-- Property access `j.k` on a parsed JSON value: defined fields of an
object are found by key; anything else yields JavaScript `undefined`,
modelled as `none`. -/
def getField (j : Json) (k : String) : Option Json :=
  match j with
  | .obj fields => fields.lookup k
  | _ => none

/-- JavaScript truthiness test `!x` on a `JSON.parse` result: `null`,
`false`, `0` and `""` are falsy; arrays and objects are always truthy. -/
def jsFalsy : Json → Bool
  | .null => true
  | .bool b => !b
  | .num q => q == 0
  | .str s => s == ""
  | .arr _ => false
  | .obj _ => false

/-- JavaScript strict equality `x === s` between a property-access result
(possibly `undefined`) and a string: true exactly when the value is that
string.  `undefined === s` is false for every string `s`. -/
def isStrEq : Option Json → String → Bool
  | some (.str t), s => t == s
  | _, _ => false

/-- Contents of one `localStorage` key.  `absent` covers `getItem`
returning `null` (and the empty string — both are falsy, so
`getItem(k) || d` replaces them by the default `d`); `json j` is text
that `JSON.parse` accepts, already parsed; `malformed s` is non-empty
text that `JSON.parse` rejects with a `SyntaxError`. -/
inductive Stored where
  | absent : Stored
  | json (j : Json) : Stored
  | malformed (s : String) : Stored
deriving Repr

/-- The durable store: the two keys this core uses. -/
structure Store where
  userData : Stored
  uploadedFiles : Stored
deriving Repr

/-- Model of the read `JSON.parse(localStorage.getItem("userData") || "...")`
with the object-text default: the default parses to the empty object;
malformed stored text throws. -/
def parseUserData : Stored → Except String Json
  | .absent => .ok (Json.obj [])
  | .json j => .ok j
  | .malformed s => .error s

/-- Model of the read `JSON.parse(localStorage.getItem("uploadedFiles") || "...")`
with the array-text default: the default parses to the empty array;
malformed stored text throws. -/
def parseUploadedFiles : Stored → Except String Json
  | .absent => .ok (Json.arr [])
  | .json j => .ok j
  | .malformed s => .error s

/-- Outcome signalled to the caller by `handleLogin`. -/
inductive LoginResult where
  | validationError : LoginResult  -- toast "Please fill in all fields"
  | authError : LoginResult        -- toast "Invalid credentials"
  | success : LoginResult          -- toast "Successfully logged in", navigate
deriving Repr, DecidableEq

/-- The record written back on success:
`{ name: stored.name, email: stored.email, isLoggedIn: true }`.
A field whose value is `undefined` is dropped by `JSON.stringify`, so
the serialized object keeps only the defined fields. -/
def loginRecord (stored : Json) : Json :=
  Json.obj
    ((match getField stored "name" with
      | some v => [("name", v)]
      | none => []) ++
     (match getField stored "email" with
      | some v => [("email", v)]
      | none => []) ++
     [("isLoggedIn", Json.bool true)])

/-- Model of `handleLogin` from `src/pages/Login.tsx`: validate the two inputs,
parse the stored user record, compare email and password with strict
equality, and on success overwrite `"userData"` with `loginRecord`.
An unparsable stored record makes `JSON.parse` throw (`Except.error`). -/
def handleLogin (email password : String) (st : Store) :
    Except String (LoginResult × Store) :=
  if email = "" ∨ password = "" then
    .ok (.validationError, st)
  else
    match parseUserData st.userData with
    | .error e => .error e
    | .ok stored =>
      if jsFalsy stored ∨ ¬ isStrEq (getField stored "email") email = true
          ∨ ¬ isStrEq (getField stored "password") password = true then
        .ok (.authError, st)
      else
        .ok (.success, { st with userData := .json (loginRecord stored) })

/-! ## Upload Simulator -/

/-- A browser `File` handle: the properties the uploader reads. -/
structure FileHandle where
  name : String
  type : String
  size : ℕ
deriving Repr, DecidableEq

/-- Per-file transient status (uploading, complete or error). -/
inductive UploadStatus where
  | uploading : UploadStatus
  | complete : UploadStatus
  | error : UploadStatus
deriving Repr, DecidableEq

/-- A transient in-memory `UploadingFile` entry. -/
structure UploadingFile where
  id : String
  file : FileHandle
  progress : ℚ
  status : UploadStatus
deriving Repr, DecidableEq

/-- The metadata record persisted on completion. -/
structure UploadedFileRecord where
  id : String
  name : String
  type : String
  size : ℕ
  modifiedAt : ℕ
  isFolder : Bool
deriving Repr, DecidableEq

/-- Serialization of an `UploadedFileRecord` into the stored JSON array.
(`new Date()` stringifies to an ISO text, modelled as the decimal text of
the millisecond timestamp.) -/
def recToJson (r : UploadedFileRecord) : Json :=
  Json.obj [("id", .str r.id), ("name", .str r.name), ("type", .str r.type),
            ("size", .num r.size), ("modifiedAt", .str (toString r.modifiedAt)),
            ("isFolder", .bool r.isFolder)]

/-- The array spread `[...existingFiles]`: an array spreads to its
elements, a string spreads to its characters, and every other
`JSON.parse` result raises a `TypeError` (not iterable). -/
def spreadToList : Json → Except String (List Json)
  | .arr xs => .ok xs
  | .str s => .ok (s.data.map fun c => Json.str (String.singleton c))
  | _ => .error "TypeError: not iterable"

/-- Model of `saveUploadedFile` from the uploader component: read the stored
sequence, append the new record, write the result back.  A thrown
`SyntaxError`/`TypeError` propagates (`Except.error`). -/
def saveUploadedFile (fileData : UploadedFileRecord) (st : Store) :
    Except String Store :=
  match parseUploadedFiles st.uploadedFiles with
  | .error e => .error e
  | .ok existingFiles =>
    match spreadToList existingFiles with
    | .error e => .error e
    | .ok elems =>
      .ok { st with uploadedFiles := .json (.arr (elems ++ [recToJson fileData])) }

/-- The fresh entry created by `handleFileSelect` for one selected file:
id is the name, a dash and the timestamp; progress 0; status uploading. -/
def mkUploadingFile (now : ℕ) (f : FileHandle) : UploadingFile :=
  { id := f.name ++ "-" ++ toString now
    file := f
    progress := 0
    status := .uploading }

/-- Model of `handleFileSelect`: ignore an empty selection, otherwise append the
freshly created entries to the existing transient list. -/
def handleFileSelect (now : ℕ) (files : List FileHandle)
    (prev : List UploadingFile) : List UploadingFile :=
  if files = [] then prev
  else prev ++ files.map (mkUploadingFile now)

/-- The updater `prev.map(f => f.id === fileId ? { ...f, progress } : f)`. -/
def setProgress (fileId : String) (p : ℚ)
    (fs : List UploadingFile) : List UploadingFile :=
  fs.map fun f => if f.id = fileId then { f with progress := p } else f

/-- The updater marking the entry registered under `fileId` as complete
with progress 100, leaving every other entry unchanged. -/
def setComplete (fileId : String)
    (fs : List UploadingFile) : List UploadingFile :=
  fs.map fun f =>
    if f.id = fileId then { f with progress := 100, status := .complete }
    else f

/-- The updater `prev.filter(f => f.id !== fileId)`, used both by the
user-facing `removeFile` action and by the post-completion timeout. -/
def removeFile (fileId : String)
    (fs : List UploadingFile) : List UploadingFile :=
  fs.filter fun f => f.id != fileId

/-- The interval period of the simulated upload, in milliseconds. -/
def tickPeriodMs : ℕ := 200

/-- The delay before a completed entry leaves the transient list. -/
def removalDelayMs : ℕ := 2000

/-- In-memory list plus durable store: the state one interval tick of
`simulateFileUpload` acts on. -/
structure UploaderState where
  uploadingFiles : List UploadingFile
  store : Store
deriving Repr

/-- One firing of the `setInterval` callback in `simulateFileUpload`,
for the file registered as `fileId`/`file`.  `progress` is the
callback's captured local variable, `r` the value of
`Math.random() * 10` drawn this tick (so `0 ≤ r < 10`), `now` the clock.
Returns the new local progress, whether the interval was cleared
(`clearInterval` ran, so no further tick fires and removal from the
list after `removalDelayMs` was scheduled), and the updated state.
A storage parse failure inside `saveUploadedFile` propagates out of
the callback. -/
def uploadTick (fileId : String) (file : FileHandle) (now : ℕ) (r : ℚ)
    (progress : ℚ) (st : UploaderState) :
    Except String (ℚ × Bool × UploaderState) :=
  let p := progress + r
  if 100 ≤ p then
    match saveUploadedFile
        { id := fileId, name := file.name, type := file.type,
          size := file.size, modifiedAt := now, isFolder := false } st.store with
    | .error e => .error e
    | .ok store1 =>
      .ok (100, true,
        { uploadingFiles := setProgress fileId 100 (setComplete fileId st.uploadingFiles),
          store := store1 })
  else
    .ok (p, false,
      { st with uploadingFiles := setProgress fileId p st.uploadingFiles })

/-- The timeout body scheduled 2000 ms after completion:
`setUploadingFiles(prev => prev.filter(f => f.id !== fileId))`. -/
def removalTimeout (fileId : String) (st : UploaderState) : UploaderState :=
  { st with uploadingFiles := removeFile fileId st.uploadingFiles }

/-- A run of the per-file interval: fire `uploadTick` once per listed
increment, stopping (no further ticks) once the interval is cleared. -/
def runTicks (fileId : String) (file : FileHandle) (now : ℕ)
    (incs : List ℚ) (progress : ℚ) (cleared : Bool) (st : UploaderState) :
    Except String (ℚ × Bool × UploaderState) :=
  match incs with
  | [] => .ok (progress, cleared, st)
  | r :: rest =>
    if cleared then .ok (progress, cleared, st)
    else do
      let (p, c, st') ← uploadTick fileId file now r progress st
      runTicks fileId file now rest p c st'

/-- Model of `getTotalProgress`: 0 for an empty list, else the reduce-sum of the
entries' progress divided by the length. -/
def getTotalProgress (fs : List UploadingFile) : ℚ :=
  if fs.length = 0 then 0
  else (fs.foldl (fun sum f => sum + f.progress) 0) / fs.length

/-- Model of `allUploaded`: the list is non-empty and every entry is complete. -/
def allUploaded (fs : List UploadingFile) : Bool :=
  decide (fs.length > 0) && fs.all fun f => f.status == .complete

/-! ## Observation helpers on the store -/

/-- Observation: is the stored value a JSON object? -/
def storedIsJsonObj : Stored → Bool
  | .json (.obj _) => true
  | _ => false

/-- Observation: the key list of a stored JSON object (else empty). -/
def userDataKeys : Stored → List String
  | .json (.obj l) => l.map Prod.fst
  | _ => []

/-- Observation: field lookup inside a stored JSON value. -/
def storedGetField : Stored → String → Option Json
  | .json j, k => getField j k
  | _, _ => none

/-! ## Helper lemmas -/

theorem isStrEq_eq {o : Option Json} {s : String} (h : isStrEq o s = true) :
    o = some (.str s) := by
  cases o with
  | none => simp [isStrEq] at h
  | some j =>
    cases j with
    | str t => have : t = s := by simpa [isStrEq] using h
               rw [this]
    | null => simp [isStrEq] at h
    | bool b => simp [isStrEq] at h
    | num q => simp [isStrEq] at h
    | arr xs => simp [isStrEq] at h
    | obj l => simp [isStrEq] at h

theorem jsFalsy_of_getField {u : Json} {k : String} {v : Json}
    (h : getField u k = some v) : jsFalsy u = false := by
  cases u <;> simp_all [getField, jsFalsy]

theorem loginRecord_getField_name (u : Json) :
    getField (loginRecord u) "name" = getField u "name" := by
  unfold loginRecord
  cases hn : getField u "name" <;> cases he : getField u "email" <;>
    simp [getField, List.lookup]

theorem loginRecord_getField_email (u : Json) :
    getField (loginRecord u) "email" = getField u "email" := by
  unfold loginRecord
  cases hn : getField u "name" <;> cases he : getField u "email" <;>
    simp [getField, List.lookup]

theorem loginRecord_getField_isLoggedIn (u : Json) :
    getField (loginRecord u) "isLoggedIn" = some (.bool true) := by
  unfold loginRecord
  cases hn : getField u "name" <;> cases he : getField u "email" <;>
    simp [getField, List.lookup]

theorem loginRecord_getField_password (u : Json) :
    getField (loginRecord u) "password" = none := by
  unfold loginRecord
  cases hn : getField u "name" <;> cases he : getField u "email" <;>
    simp [getField, List.lookup]

/-- The success path of `handleLogin`, fully evaluated. -/
theorem handleLogin_success_eq (email password : String) (u : Json) (st : Store)
    (hst : st.userData = .json u) (he : email ≠ "") (hp : password ≠ "")
    (hemail : isStrEq (getField u "email") email = true)
    (hpass : isStrEq (getField u "password") password = true) :
    handleLogin email password st =
      .ok (.success, { st with userData := .json (loginRecord u) }) := by
  have hobj : jsFalsy u = false := jsFalsy_of_getField (isStrEq_eq hemail)
  unfold handleLogin
  rw [if_neg (by push_neg; exact ⟨he, hp⟩), hst]
  simp [parseUserData, hobj, hemail, hpass]

/-! ## Concrete demo data -/

/-- A well-formed stored user record. -/
def demoUser : Json :=
  .obj [("name", .str "Alice"), ("email", .str "a@b.c"),
        ("password", .str "pw"), ("isLoggedIn", .bool false)]

/-- Store holding the demo record and no uploaded files. -/
def demoStore : Store := { userData := .json demoUser, uploadedFiles := .absent }

/-- The store after a successful demo login. -/
def demoStoreAfter : Store :=
  { userData := .json (.obj [("name", .str "Alice"), ("email", .str "a@b.c"),
                             ("isLoggedIn", .bool true)])
    uploadedFiles := .absent }

/-- Store whose two keys both hold malformed text. -/
def malformedStore : Store :=
  { userData := .malformed "not-json", uploadedFiles := .malformed "not-json" }

/-- A demo metadata record. -/
def demoRecord : UploadedFileRecord :=
  { id := "a.txt-5", name := "a.txt", type := "text/plain",
    size := 10, modifiedAt := 5, isFolder := false }

/-! ## C1 -/

/-- C1 counterexample: with malformed text stored at the two keys, both
read paths throw a parse error instead of returning normally — the login
handler and `saveUploadedFile` propagate the `JSON.parse` exception, so
the reads do not degrade to an empty object / empty sequence. -/
theorem C1_malformed_reads_throw :
    handleLogin "a@b.c" "pw" malformedStore = .error "not-json" ∧
    saveUploadedFile demoRecord malformedStore = .error "not-json" := by
  constructor <;> rfl

/-- C1 (amended): the reads degrade to the empty object / empty sequence
only when the stored key is absent (or holds empty text); on malformed
non-JSON text `JSON.parse` raises, and neither read path guards it. -/
theorem C1_reads_degrade_only_on_absent :
    parseUserData .absent = .ok (Json.obj []) ∧
    parseUploadedFiles .absent = .ok (Json.arr []) ∧
    (∀ s, parseUserData (.malformed s) = .error s) ∧
    (∀ s, parseUploadedFiles (.malformed s) = .error s) :=
  ⟨rfl, rfl, fun _ => rfl, fun _ => rfl⟩

/-! ## C2 -/

/-- C2 counterexample: a successful login writes back an object with the
three keys `name`, `email`, `isLoggedIn` — not the four the claim
states, and not absent/empty: the `password` field is dropped. -/
theorem C2_login_writes_three_fields :
    handleLogin "a@b.c" "pw" demoStore = .ok (.success, demoStoreAfter) ∧
    userDataKeys demoStoreAfter.userData = ["name", "email", "isLoggedIn"] ∧
    userDataKeys demoStoreAfter.userData ≠
      ["name", "email", "password", "isLoggedIn"] ∧
    storedIsJsonObj demoStoreAfter.userData = true := by
  refine ⟨rfl, rfl, ?_, rfl⟩
  simp [demoStoreAfter, userDataKeys]

/-- Inversion of the success path of `handleLogin`: success only arises
from a parsable stored record matching both credentials, and the store
written back replaces `"userData"` by `loginRecord` of that record. -/
theorem handleLogin_success_inv (email password : String) (st st' : Store)
    (h : handleLogin email password st = .ok (.success, st')) :
    ∃ u, parseUserData st.userData = .ok u ∧
      isStrEq (getField u "email") email = true ∧
      isStrEq (getField u "password") password = true ∧
      st' = { st with userData := .json (loginRecord u) } := by
  by_cases hv : email = "" ∨ password = ""
  · unfold handleLogin at h
    rw [if_pos hv] at h
    simp at h
  · unfold handleLogin at h
    rw [if_neg hv] at h
    cases hpu : parseUserData st.userData with
    | error e => rw [hpu] at h; exact absurd h (by simp)
    | ok u =>
      rw [hpu] at h
      dsimp only at h
      by_cases hg : (jsFalsy u : Prop) ∨ ¬ isStrEq (getField u "email") email = true
          ∨ ¬ isStrEq (getField u "password") password = true
      · rw [if_pos hg] at h
        simp at h
      · rw [if_neg hg] at h
        push_neg at hg
        simp only [Except.ok.injEq, Prod.mk.injEq] at h
        exact ⟨u, rfl, hg.2.1, hg.2.2, h.2.symm⟩

/-- Lemma: `saveUploadedFile` never writes the `"userData"` key. -/
theorem saveUploadedFile_userData (rec : UploadedFileRecord) (s s' : Store)
    (hsave : saveUploadedFile rec s = .ok s') : s'.userData = s.userData := by
  unfold saveUploadedFile at hsave
  split at hsave
  · exact absurd hsave (by simp)
  · split at hsave
    · exact absurd hsave (by simp)
    · simp only [Except.ok.injEq] at hsave
      rw [← hsave]

/-- C2 (amended): after a successful login the value stored under
`"userData"` is a JSON object whose keys are exactly
`name`, `email`, `isLoggedIn` (just `email`, `isLoggedIn` when the prior
record had no `name`) — the `password` field is dropped — with
`isLoggedIn = true`; and `saveUploadedFile` never touches `"userData"`. -/
theorem C2_userData_shape (email password : String) (st st' : Store)
    (rec : UploadedFileRecord) (s s' : Store)
    (h : handleLogin email password st = .ok (.success, st'))
    (hsave : saveUploadedFile rec s = .ok s') :
    storedIsJsonObj st'.userData = true ∧
    (userDataKeys st'.userData = ["name", "email", "isLoggedIn"] ∨
     userDataKeys st'.userData = ["email", "isLoggedIn"]) ∧
    storedGetField st'.userData "password" = none ∧
    storedGetField st'.userData "isLoggedIn" = some (.bool true) ∧
    s'.userData = s.userData := by
  obtain ⟨u, hpu, hemail, hpass, hst'⟩ := handleLogin_success_inv email password st st' h
  have hse : getField u "email" = some (.str email) := isStrEq_eq hemail
  subst hst'
  refine ⟨?_, ?_, ?_, ?_, saveUploadedFile_userData rec s s' hsave⟩
  · simp [storedIsJsonObj, loginRecord]
  · simp only [userDataKeys, loginRecord]
    cases hn : getField u "name" <;> rw [hse] <;> simp
  · simpa [storedGetField] using loginRecord_getField_password u
  · simpa [storedGetField] using loginRecord_getField_isLoggedIn u

/-- C2 witness. -/
theorem C2_userData_shape_witness :
    storedIsJsonObj demoStoreAfter.userData = true ∧
    (userDataKeys demoStoreAfter.userData = ["name", "email", "isLoggedIn"] ∨
     userDataKeys demoStoreAfter.userData = ["email", "isLoggedIn"]) ∧
    storedGetField demoStoreAfter.userData "password" = none ∧
    storedGetField demoStoreAfter.userData "isLoggedIn" =
      some (.bool true) ∧
    (Store.mk (.json demoUser) (.json (.arr [recToJson demoRecord]))).userData =
      (Store.mk (.json demoUser) .absent).userData :=
  C2_userData_shape "a@b.c" "pw" demoStore demoStoreAfter demoRecord
    (Store.mk (.json demoUser) .absent)
    (Store.mk (.json demoUser) (.json (.arr [recToJson demoRecord])))
    rfl rfl

/-! ## C3 -/

/-- C3: the record persisted by a successful login has no `password`
field, so an immediate second login with the very same (non-empty)
credentials fails with the authentication signal. -/
theorem C3_relogin_fails (email password : String) (u : Json) (st : Store)
    (hst : st.userData = .json u) (he : email ≠ "") (hp : password ≠ "")
    (hemail : isStrEq (getField u "email") email = true)
    (hpass : isStrEq (getField u "password") password = true) :
    handleLogin email password st =
      .ok (.success, { st with userData := .json (loginRecord u) }) ∧
    getField (loginRecord u) "password" = none ∧
    handleLogin email password { st with userData := .json (loginRecord u) } =
      .ok (.authError, { st with userData := .json (loginRecord u) }) := by
  refine ⟨handleLogin_success_eq email password u st hst he hp hemail hpass,
    loginRecord_getField_password u, ?_⟩
  unfold handleLogin
  rw [if_neg (by push_neg; exact ⟨he, hp⟩)]
  have hpw : isStrEq (getField (loginRecord u) "password") password = false := by
    rw [loginRecord_getField_password u]; rfl
  simp [parseUserData, hpw]

/-- C3 witness. -/
theorem C3_relogin_fails_witness :
    handleLogin "a@b.c" "pw" demoStore =
      .ok (.success, { demoStore with userData := .json (loginRecord demoUser) }) ∧
    getField (loginRecord demoUser) "password" = none ∧
    handleLogin "a@b.c" "pw"
        { demoStore with userData := .json (loginRecord demoUser) } =
      .ok (.authError, { demoStore with userData := .json (loginRecord demoUser) }) :=
  C3_relogin_fails "a@b.c" "pw" demoUser demoStore rfl
    (by decide) (by decide) rfl rfl

/-! ## C4 -/

/-- C4: when both inputs are non-empty and equal to the stored record's
`email` and `password`, login succeeds, and the written record copies
`name` and `email` from the stored record with `isLoggedIn = true`. -/
theorem C4_login_succeeds (email password : String) (u : Json) (st : Store)
    (hst : st.userData = .json u) (he : email ≠ "") (hp : password ≠ "")
    (hemail : isStrEq (getField u "email") email = true)
    (hpass : isStrEq (getField u "password") password = true) :
    handleLogin email password st =
      .ok (.success, { st with userData := .json (loginRecord u) }) ∧
    getField (loginRecord u) "name" = getField u "name" ∧
    getField (loginRecord u) "email" = some (.str email) ∧
    getField (loginRecord u) "isLoggedIn" = some (.bool true) :=
  ⟨handleLogin_success_eq email password u st hst he hp hemail hpass,
   loginRecord_getField_name u,
   by rw [loginRecord_getField_email u]; exact isStrEq_eq hemail,
   loginRecord_getField_isLoggedIn u⟩

/-- C4 witness. -/
theorem C4_login_succeeds_witness :
    handleLogin "a@b.c" "pw" demoStore =
      .ok (.success, { demoStore with userData := .json (loginRecord demoUser) }) ∧
    getField (loginRecord demoUser) "name" = getField demoUser "name" ∧
    getField (loginRecord demoUser) "email" = some (.str "a@b.c") ∧
    getField (loginRecord demoUser) "isLoggedIn" = some (.bool true) :=
  C4_login_succeeds "a@b.c" "pw" demoUser demoStore rfl
    (by decide) (by decide) rfl rfl

/-! ## C5 -/

/-- C5: a login attempt that fails — empty field (validation) or absent
or mismatching stored record (authentication) — returns the store it was
given: no key is written. -/
theorem C5_failed_login_no_write (email password : String) (st : Store)
    (u : Json) (r : LoginResult) (st' : Store) :
    (email = "" ∨ password = "" →
      handleLogin email password st = .ok (.validationError, st)) ∧
    (email ≠ "" → password ≠ "" → parseUserData st.userData = .ok u →
      jsFalsy u = true ∨ isStrEq (getField u "email") email = false ∨
        isStrEq (getField u "password") password = false →
      handleLogin email password st = .ok (.authError, st)) ∧
    (handleLogin email password st = .ok (r, st') →
      r = .validationError ∨ r = .authError → st' = st) := by
  refine ⟨?_, ?_, ?_⟩
  · intro hv
    unfold handleLogin
    rw [if_pos hv]
  · intro he hp hpu hg
    unfold handleLogin
    rw [if_neg (by push_neg; exact ⟨he, hp⟩), hpu]
    dsimp only
    rw [if_pos ?_]
    rcases hg with hg | hg | hg
    · exact Or.inl hg
    · exact Or.inr (Or.inl (by simp [hg]))
    · exact Or.inr (Or.inr (by simp [hg]))
  · intro h hr
    by_cases hv : email = "" ∨ password = ""
    · unfold handleLogin at h
      rw [if_pos hv] at h
      simp only [Except.ok.injEq, Prod.mk.injEq] at h
      exact h.2.symm
    · unfold handleLogin at h
      rw [if_neg hv] at h
      cases hpu : parseUserData st.userData with
      | error e => rw [hpu] at h; exact absurd h (by simp)
      | ok v =>
        rw [hpu] at h
        dsimp only at h
        split at h
        · simp only [Except.ok.injEq, Prod.mk.injEq] at h
          exact h.2.symm
        · simp only [Except.ok.injEq, Prod.mk.injEq] at h
          rcases hr with hr | hr <;> rw [← h.1] at hr <;> exact absurd hr (by simp)

/-- C5 witness: an empty-password attempt and a wrong-password attempt
both fail and leave the store untouched. -/
theorem C5_failed_login_no_write_witness :
    handleLogin "a@b.c" "" demoStore = .ok (.validationError, demoStore) ∧
    handleLogin "a@b.c" "wrong" demoStore = .ok (.authError, demoStore) ∧
    demoStore = demoStore := by
  refine ⟨?_, ?_, ?_⟩
  · exact (C5_failed_login_no_write "a@b.c" "" demoStore demoUser
      .validationError demoStore).1 (Or.inr rfl)
  · exact (C5_failed_login_no_write "a@b.c" "wrong" demoStore demoUser
      .authError demoStore).2.1 (by decide) (by decide) rfl
      (Or.inr (Or.inr (by decide)))
  · exact (C5_failed_login_no_write "a@b.c" "" demoStore demoUser
      .validationError demoStore).2.2 ((C5_failed_login_no_write "a@b.c" ""
        demoStore demoUser .validationError demoStore).1 (Or.inr rfl))
      (Or.inl rfl)

/-! ## Upload demo data -/

/-- A demo file handle. -/
def demoFile : FileHandle := { name := "a.txt", type := "text/plain", size := 10 }

/-- The transient entry created for `demoFile` at time 5. -/
def demoEntry : UploadingFile := mkUploadingFile 5 demoFile

/-- Uploader state holding the single demo entry and an empty store. -/
def demoState : UploaderState :=
  { uploadingFiles := [demoEntry], store := { userData := .absent, uploadedFiles := .absent } }

/-- State `demoState` after one tick of increment 1. -/
def demoState1 : UploaderState :=
  { uploadingFiles := [{ demoEntry with progress := 1 }]
    store := { userData := .absent, uploadedFiles := .absent } }


/-! ## C6 -/

/-- Once the interval is cleared nothing fires: a run from a cleared
state returns it unchanged, whatever increments were scheduled. -/
theorem runTicks_cleared (fileId : String) (file : FileHandle) (now : ℕ)
    (incs : List ℚ) (p : ℚ) (st : UploaderState) :
    runTicks fileId file now incs p true st = .ok (p, true, st) := by
  cases incs <;> simp [runTicks]

/-- C6 counterexample: `Math.random()` may return 0, so a tick can draw
increment 0 (a legal value of `Math.random() * 10 ∈ [0,10)`).  Such a
tick, fired on a file whose progress is 0 (below 100), leaves progress
at 0: it does not strictly increase it. -/
theorem C6_zero_tick_not_strict :
    uploadTick "a.txt-5" demoFile 5 0 0 demoState = .ok (0, false, demoState) ∧
    ¬ (0:ℚ) < 0 := by
  constructor
  · norm_num [uploadTick, demoState, setProgress, demoEntry, mkUploadingFile, demoFile]
  · exact lt_irrefl 0

/-- C6 (amended): with the drawn increment `r ∈ [0,10)` (any `r ≥ 0`
suffices), a tick never decreases progress and strictly increases it
whenever `r > 0`; the interval is cleared exactly when `progress + r`
reaches 100, in which case progress is clamped to exactly 100; while
not cleared, progress stays below 100; and once cleared no further tick
fires, so the completed state never changes again. -/
theorem C6_progress_monotone (fileId : String) (file : FileHandle) (now : ℕ)
    (r progress : ℚ) (st : UploaderState) (p : ℚ) (c : Bool)
    (st' : UploaderState) (incs : List ℚ)
    (h0 : 0 ≤ r) (hlt : progress < 100)
    (h : uploadTick fileId file now r progress st = .ok (p, c, st')) :
    progress ≤ p ∧ (0 < r → progress < p) ∧
    (c = true ↔ 100 ≤ progress + r) ∧
    (c = true → p = 100) ∧
    (c = false → p = progress + r ∧ p < 100) ∧
    runTicks fileId file now incs p true st' = .ok (p, true, st') := by
  unfold uploadTick at h
  dsimp only at h
  by_cases hge : (100:ℚ) ≤ progress + r
  · rw [if_pos hge] at h
    cases hsv : saveUploadedFile
        { id := fileId, name := file.name, type := file.type,
          size := file.size, modifiedAt := now, isFolder := false } st.store with
    | error e => rw [hsv] at h; exact absurd h (by simp)
    | ok store1 =>
      rw [hsv] at h
      simp only [Except.ok.injEq, Prod.mk.injEq] at h
      obtain ⟨hp, hc, -⟩ := h
      subst hp; subst hc
      exact ⟨le_of_lt hlt, fun _ => hlt, by simp [hge], fun _ => rfl,
        fun hcf => absurd hcf (by simp), runTicks_cleared _ _ _ _ _ _⟩
  · rw [if_neg hge] at h
    simp only [Except.ok.injEq, Prod.mk.injEq] at h
    obtain ⟨hp, hc, -⟩ := h
    subst hp; subst hc
    refine ⟨le_add_of_nonneg_right h0, fun hr => lt_add_of_pos_right progress hr,
      by simp [hge], fun hct => absurd hct (by simp),
      fun _ => ⟨rfl, lt_of_not_ge hge⟩, runTicks_cleared _ _ _ _ _ _⟩

/-- C6 witness. -/
theorem C6_progress_monotone_witness :
    (0:ℚ) ≤ 1 ∧ (0:ℚ) < 1 ∧ (1:ℚ) = 0 + 1 ∧ (1:ℚ) < 100 ∧
    runTicks "a.txt-5" demoFile 5 [3, 4] 1 true demoState1 =
      .ok (1, true, demoState1) := by
  have h := C6_progress_monotone "a.txt-5" demoFile 5 1 0 demoState 1 false
    demoState1 [3, 4] (by norm_num) (by norm_num)
    (by norm_num [uploadTick, demoState, demoState1, setProgress, demoEntry,
        mkUploadingFile, demoFile]
        decide)
  exact ⟨h.1, h.2.1 (by norm_num), (h.2.2.2.2.1 rfl).1, (h.2.2.2.2.1 rfl).2,
    h.2.2.2.2.2⟩

/-! ## C7 -/

/-- The record appended when the upload of `fileId`/`file` completes at
time `now`. -/
def completionRecord (fileId : String) (file : FileHandle) (now : ℕ) :
    UploadedFileRecord :=
  { id := fileId, name := file.name, type := file.type,
    size := file.size, modifiedAt := now, isFolder := false }

/-- Observation: entry for `fileId`, complete, at progress 100. -/
def isCompleteEntry (fileId : String) (f : UploadingFile) : Bool :=
  f.id == fileId && f.status == UploadStatus.complete && f.progress == 100

/-- Observation: entry not registered under `fileId`. -/
def notFileId (fileId : String) (f : UploadingFile) : Bool :=
  f.id != fileId

/-- Lemma: `saveUploadedFile` on a store whose sequence is absent (then
`xs = []`) or holds the JSON array `xs`: the write appends exactly one
record at the end and leaves everything else unchanged. -/
theorem saveUploadedFile_eq (rec : UploadedFileRecord) (st : Store)
    (xs : List Json)
    (hstored : st.uploadedFiles = .absent ∧ xs = [] ∨
      st.uploadedFiles = .json (.arr xs)) :
    saveUploadedFile rec st =
      .ok { st with uploadedFiles := .json (.arr (xs ++ [recToJson rec])) } := by
  rcases hstored with ⟨ha, hx⟩ | ha
  · subst hx
    unfold saveUploadedFile
    rw [ha]
    rfl
  · unfold saveUploadedFile
    rw [ha]
    rfl

/-- Dropping all `fileId` entries leaves only entries whose id differs. -/
theorem removeFile_all_notFileId (fileId : String) (fs : List UploadingFile) :
    (removeFile fileId fs).all (notFileId fileId) = true := by
  unfold removeFile notFileId
  rw [List.all_eq_true]
  intro f hf
  exact (List.mem_filter.mp hf).2

/-- C7: a tick that takes `progress + r` to 100 on a state whose list
contains an entry for the file appends exactly one matching record
(name, type, size of the handle, `isFolder = false`) to the stored
sequence, leaves the entry in the list with `status = complete` and
progress 100, and only the 2000 ms timeout then removes it. -/
theorem C7_completion_appends (fileId : String) (file : FileHandle) (now : ℕ)
    (r progress : ℚ) (fs : List UploadingFile) (store : Store) (xs : List Json)
    (e : UploadingFile)
    (hreach : 100 ≤ progress + r)
    (hstored : store.uploadedFiles = .absent ∧ xs = [] ∨
      store.uploadedFiles = .json (.arr xs))
    (he : e ∈ fs) (hid : e.id = fileId) :
    uploadTick fileId file now r progress ⟨fs, store⟩ =
      .ok (100, true,
        ⟨setProgress fileId 100 (setComplete fileId fs),
         { store with uploadedFiles := .json (.arr (xs ++
            [recToJson (completionRecord fileId file now)])) }⟩) ∧
    ((setProgress fileId 100 (setComplete fileId fs)).any
      (isCompleteEntry fileId)) = true ∧
    removalDelayMs = 2000 ∧
    ((removalTimeout fileId
        ⟨setProgress fileId 100 (setComplete fileId fs), store⟩).uploadingFiles.all
      (notFileId fileId)) = true := by
  refine ⟨?_, ?_, rfl, ?_⟩
  · unfold uploadTick
    dsimp only
    rw [if_pos hreach, saveUploadedFile_eq
      { id := fileId, name := file.name, type := file.type,
        size := file.size, modifiedAt := now, isFolder := false } store xs hstored]
    rfl
  · rw [List.any_eq_true]
    refine ⟨{ e with progress := 100, status := .complete }, ?_, ?_⟩
    · unfold setProgress setComplete
      rw [List.map_map]
      have := List.mem_map_of_mem
        ((fun f => if f.id = fileId then { f with progress := 100 } else f) ∘
         (fun f => if f.id = fileId then
            { f with progress := 100, status := UploadStatus.complete }
          else f)) he
      simpa [hid] using this
    · simp [isCompleteEntry, hid]
  · exact removeFile_all_notFileId fileId _

/-- C7 witness. -/
theorem C7_completion_appends_witness :
    uploadTick "a.txt-5" demoFile 5 100 0
        ⟨[demoEntry], { userData := .absent, uploadedFiles := .absent }⟩ =
      .ok (100, true,
        ⟨setProgress "a.txt-5" 100 (setComplete "a.txt-5" [demoEntry]),
         { userData := .absent,
           uploadedFiles := .json (.arr ([] ++
            [recToJson (completionRecord "a.txt-5" demoFile 5)])) }⟩) ∧
    ((setProgress "a.txt-5" 100 (setComplete "a.txt-5" [demoEntry])).any
      (isCompleteEntry "a.txt-5")) = true ∧
    removalDelayMs = 2000 ∧
    ((removalTimeout "a.txt-5"
        ⟨setProgress "a.txt-5" 100 (setComplete "a.txt-5" [demoEntry]),
         { userData := .absent, uploadedFiles := .absent }⟩).uploadingFiles.all
      (notFileId "a.txt-5")) = true :=
  C7_completion_appends "a.txt-5" demoFile 5 100 0 [demoEntry]
    { userData := .absent, uploadedFiles := .absent } [] demoEntry
    (by norm_num) (Or.inl ⟨rfl, rfl⟩) (List.mem_singleton.mpr rfl) (by decide)

/-! ## C8 -/

/-- C8: every write `saveUploadedFile` performs produces the previously
stored sequence with exactly one new record appended at the end; no
stored entry is removed or mutated, and the other key is untouched. -/
theorem C8_append_only (rec : UploadedFileRecord) (st : Store) (xs : List Json)
    (hstored : st.uploadedFiles = .absent ∧ xs = [] ∨
      st.uploadedFiles = .json (.arr xs)) :
    saveUploadedFile rec st =
      .ok { st with uploadedFiles := .json (.arr (xs ++ [recToJson rec])) } :=
  saveUploadedFile_eq rec st xs hstored

/-- C8 witness. -/
theorem C8_append_only_witness :
    saveUploadedFile demoRecord demoStore =
      .ok { demoStore with
        uploadedFiles := .json (.arr ([] ++ [recToJson demoRecord])) } :=
  C8_append_only demoRecord demoStore [] (Or.inl ⟨rfl, rfl⟩)

/-! ## C9 -/

/-- The demo entry after completion. -/
def demoCompleteEntry : UploadingFile :=
  { demoEntry with progress := 100, status := .complete }

/-- C9: the "all uploaded" flag is true iff the transient list is
non-empty and every entry is complete; and appending a freshly selected
batch (whose entries enter with `status = uploading`) makes it false. -/
theorem C9_allUploaded_iff (fs : List UploadingFile) (now : ℕ)
    (files : List FileHandle) :
    (allUploaded fs = true ↔ fs ≠ [] ∧ ∀ f ∈ fs, f.status = .complete) ∧
    (files ≠ [] → allUploaded (handleFileSelect now files fs) = false) := by
  constructor
  · unfold allUploaded
    rw [Bool.and_eq_true, List.all_eq_true]
    constructor
    · rintro ⟨h1, h2⟩
      refine ⟨?_, fun f hf => ?_⟩
      · intro hnil
        subst hnil
        simp at h1
      · simpa using h2 f hf
    · rintro ⟨h1, h2⟩
      refine ⟨?_, fun f hf => ?_⟩
      · simpa [List.length_pos] using h1
      · simpa using h2 f hf
  · intro hne
    unfold handleFileSelect
    rw [if_neg hne]
    cases files with
    | nil => exact absurd rfl hne
    | cons a as =>
      have hmem : mkUploadingFile now a ∈
          fs ++ (a :: as).map (mkUploadingFile now) := by
        simp
      cases hall : ((fs ++ (a :: as).map (mkUploadingFile now)).all
          fun f => f.status == UploadStatus.complete) with
      | false => unfold allUploaded; rw [hall, Bool.and_false]
      | true =>
        exfalso
        rw [List.all_eq_true] at hall
        have := hall _ hmem
        simp [mkUploadingFile] at this

/-- C9 witness: a singleton complete batch has the flag true; adding a
fresh file flips it to false. -/
theorem C9_allUploaded_iff_witness :
    allUploaded [demoCompleteEntry] = true ∧
    allUploaded (handleFileSelect 9 [demoFile] [demoCompleteEntry]) = false := by
  have h := C9_allUploaded_iff [demoCompleteEntry] 9 [demoFile]
  refine ⟨h.1.mpr ⟨by simp, fun f hf => ?_⟩, h.2 (by simp)⟩
  rw [List.mem_singleton] at hf
  subst hf
  rfl

/-! ## C10 -/

/-- C10: `getTotalProgress` equals the arithmetic mean of the entries'
progress values (sum over count), and is 0 on the empty list. -/
theorem C10_mean_progress (fs : List UploadingFile) :
    getTotalProgress fs = ((fs.map fun f => f.progress).sum) / fs.length ∧
    getTotalProgress [] = 0 := by
  refine ⟨?_, rfl⟩
  unfold getTotalProgress
  by_cases h : fs.length = 0
  · rw [if_pos h, List.length_eq_zero.mp h]
    simp
  · rw [if_neg h]
    congr 1
    rw [List.sum_eq_foldl, List.foldl_map]
